import Mathlib

/-
  Verification of the Diorama ray-casting renderer.

  Shallow embedding conventions:
  * `f32` scalars are modelled as exact rationals (`ℚ`); `f32::sqrt` and
    `f32::powf` are abstracted by the executable functions `qsqrt` and `powf`
    below (exact on perfect squares / integer exponents).
  * `u8` channels are modelled as `Fin 256`; `u32` / `usize` as `Nat`.
  * `f32::INFINITY` (the z-buffer seed) is modelled as `Option ℚ` with
    `none` standing for `+∞`.
  * The trait objects iterated by `cast_ray` are modelled by the closed sum
    type `Solid` (the scene only ever contains `Cube`s and
    `RectangularPrism`s, in that iteration order).
-/

/-- Three-component vector (`nalgebra_glm::Vec3`, `f32` components modelled
over `ℚ`). -/
structure Vec3 where
  x : ℚ
  y : ℚ
  z : ℚ
  deriving DecidableEq

instance : Sub Vec3 := ⟨fun a b => ⟨a.x - b.x, a.y - b.y, a.z - b.z⟩⟩

instance : Add Vec3 := ⟨fun a b => ⟨a.x + b.x, a.y + b.y, a.z + b.z⟩⟩

instance : Neg Vec3 := ⟨fun a => ⟨-a.x, -a.y, -a.z⟩⟩

instance : HMul Vec3 ℚ Vec3 := ⟨fun v s => ⟨v.x * s, v.y * s, v.z * s⟩⟩

instance : HMul ℚ Vec3 Vec3 := ⟨fun s v => ⟨s * v.x, s * v.y, s * v.z⟩⟩

/-- Component-wise division (`nalgebra` `component_div`).  Division by a zero
component is total in `ℚ` (`q / 0 = 0`) whereas `f32` produces `±∞`;
theorems about the slab test therefore carry nonzero-direction hypotheses
where that difference could matter. -/
def Vec3.component_div (a b : Vec3) : Vec3 := ⟨a.x / b.x, a.y / b.y, a.z / b.z⟩

/-- Dot product. -/
def Vec3.dot (a b : Vec3) : ℚ := a.x * b.x + a.y * b.y + a.z * b.z

/-- Executable stand-in for `f32::sqrt`, exact on perfect squares of
naturals; only ever used inside `normalize`, whose exact value no claim
depends on. -/
def qsqrt (q : ℚ) : ℚ := (Nat.sqrt q.num.toNat : ℚ) / (Nat.sqrt q.den : ℚ)

/-- `nalgebra` `normalize`: scale by the reciprocal norm. -/
def Vec3.normalize (v : Vec3) : Vec3 := v * (1 / qsqrt (v.dot v))

/-- Executable stand-in for `f32::powf`, exact when the exponent is a
nonnegative integer (all exponents in the program are). -/
def powf (b e : ℚ) : ℚ := b ^ e.num.toNat

@[simp] theorem Vec3.sub_x (a b : Vec3) : (a - b).x = a.x - b.x := rfl

@[simp] theorem Vec3.sub_y (a b : Vec3) : (a - b).y = a.y - b.y := rfl

@[simp] theorem Vec3.sub_z (a b : Vec3) : (a - b).z = a.z - b.z := rfl

@[simp] theorem Vec3.add_x (a b : Vec3) : (a + b).x = a.x + b.x := rfl

@[simp] theorem Vec3.add_y (a b : Vec3) : (a + b).y = a.y + b.y := rfl

@[simp] theorem Vec3.add_z (a b : Vec3) : (a + b).z = a.z + b.z := rfl

@[simp] theorem Vec3.smul_x (v : Vec3) (s : ℚ) : (v * s).x = v.x * s := rfl

@[simp] theorem Vec3.smul_y (v : Vec3) (s : ℚ) : (v * s).y = v.y * s := rfl

@[simp] theorem Vec3.smul_z (v : Vec3) (s : ℚ) : (v * s).z = v.z * s := rfl

@[simp] theorem Vec3.component_div_x (a b : Vec3) :
    (a.component_div b).x = a.x / b.x := rfl

@[simp] theorem Vec3.component_div_y (a b : Vec3) :
    (a.component_div b).y = a.y / b.y := rfl

@[simp] theorem Vec3.component_div_z (a b : Vec3) :
    (a.component_div b).z = a.z / b.z := rfl

/-- `src/color.rs`: three `u8` channels. -/
structure Color where
  r : Fin 256
  g : Fin 256
  b : Fin 256
  deriving DecidableEq

/-- `Color::new`. -/
def Color.new (r g b : Fin 256) : Color := ⟨r, g, b⟩

/-- `Color::from_hex`: `r = (hex >> 16) & 0xFF`, `g = (hex >> 8) & 0xFF`,
`b = hex & 0xFF`. -/
def Color.from_hex (hex : Nat) : Color :=
  ⟨⟨(hex >>> 16) &&& 0xFF, by
      have h := Nat.and_pow_two_sub_one_eq_mod (hex >>> 16) 8
      norm_num at h
      omega⟩,
   ⟨(hex >>> 8) &&& 0xFF, by
      have h := Nat.and_pow_two_sub_one_eq_mod (hex >>> 8) 8
      norm_num at h
      omega⟩,
   ⟨hex &&& 0xFF, by
      have h := Nat.and_pow_two_sub_one_eq_mod hex 8
      norm_num at h
      omega⟩⟩

/-- `Color::to_hex`: `((r as u32) << 16) | ((g as u32) << 8) | (b as u32)`. -/
def Color.to_hex (c : Color) : Nat :=
  ((c.r.val <<< 16) ||| (c.g.val <<< 8)) ||| c.b.val

/-- `u8::saturating_add`. -/
def u8_saturating_add (a b : Fin 256) : Fin 256 :=
  ⟨min (a.val + b.val) 255, by omega⟩

/-- `impl Add for Color`: channel-wise `saturating_add` (the `AddAssign`
impl is the same computation). -/
instance : Add Color :=
  ⟨fun c o => ⟨u8_saturating_add c.r o.r, u8_saturating_add c.g o.g,
               u8_saturating_add c.b o.b⟩⟩

/-- The channel computation of `impl Mul<f32> for Color`:
`(channel as f32 * scalar).clamp(0.0, 255.0) as u8` (the final cast
truncates, which on the clamped nonnegative range is the floor). -/
def clampByte (q : ℚ) : Fin 256 :=
  ⟨(⌊min (max q 0) 255⌋).toNat, by
    have h1 : min (max q 0) 255 ≤ (255 : ℚ) := min_le_right _ _
    have h2 := Int.floor_le_floor h1
    have h3 : (⌊(255 : ℚ)⌋ : ℤ) = 255 := by norm_num
    omega⟩

/-- `impl Mul<f32> for Color`. -/
instance : HMul Color ℚ Color :=
  ⟨fun c s => ⟨clampByte ((c.r.val : ℚ) * s), clampByte ((c.g.val : ℚ) * s),
               clampByte ((c.b.val : ℚ) * s)⟩⟩

/-- `src/material.rs` `Texture`: raw RGBA bytes plus dimensions. -/
structure Texture where
  data : List (Fin 256)
  width : Nat
  height : Nat
  deriving DecidableEq

/-- `src/material.rs` `Material`.  The two-element array `albedo: [f32; 2]`
is modelled by the fields `albedo0` (`albedo[0]`) and `albedo1`
(`albedo[1]`). -/
structure Material where
  diffuse : Color
  specular : ℚ
  albedo0 : ℚ
  albedo1 : ℚ
  texture : Option Texture
  emission : Color
  deriving DecidableEq

/-- `Material::black`. -/
def Material.black : Material :=
  ⟨Color.new 0 0 0, 0, 0, 0, none, Color.new 0 0 0⟩

/-- Modelled from the spec: `src/ray_intersect.rs` is not among the sources.
Per the spec's data model, an `Intersect` carries hit point, unit axis
normal, ray distance, resolved material, texture coordinates and the
`is_intersecting` sentinel flag; when the flag is false the other fields
are default values that must not be read. -/
structure Intersect where
  point : Vec3
  normal : Vec3
  distance : ℚ
  material : Material
  u : ℚ
  v : ℚ
  is_intersecting : Bool
  deriving DecidableEq

/-- Modelled from the spec: the empty/sentinel `Intersect` (flag false,
all other fields default). -/
def Intersect.empty : Intersect :=
  ⟨⟨0, 0, 0⟩, ⟨0, 0, 0⟩, 0, Material.black, 0, 0, false⟩

/-- Modelled from the spec: `Intersect::new`, a valid hit (flag true). -/
def Intersect.new (point normal : Vec3) (distance : ℚ) (material : Material)
    (u v : ℚ) : Intersect :=
  ⟨point, normal, distance, material, u, v, true⟩

/-- Modelled from the spec: `src/light.rs` is not among the sources.  A
light is a position, a color and a scalar intensity. -/
structure Light where
  position : Vec3
  color : Color
  intensity : ℚ
  deriving DecidableEq

/-- `src/cube.rs` `Cube`. -/
structure Cube where
  center : Vec3
  side_length : ℚ
  material : Material
  deriving DecidableEq

/-- `src/rectangular_prism.rs` `RectangularPrism`. -/
structure RectangularPrism where
  center : Vec3
  width : ℚ
  height : ℚ
  depth : ℚ
  material : Material
  deriving DecidableEq

/-- `src/cube.rs` `calculate_normal`: nearest-face heuristic, axis checked
in X, Y, Z order with `>=` comparisons. -/
def Cube.calculate_normal (point center : Vec3) (side_length : ℚ) : Vec3 :=
  let half_side := side_length / 2
  let x_diff := |point.x - center.x| - half_side
  let y_diff := |point.y - center.y| - half_side
  let z_diff := |point.z - center.z| - half_side
  if x_diff ≥ y_diff ∧ x_diff ≥ z_diff then
    if point.x > center.x then ⟨1, 0, 0⟩ else ⟨-1, 0, 0⟩
  else if y_diff ≥ x_diff ∧ y_diff ≥ z_diff then
    if point.y > center.y then ⟨0, 1, 0⟩ else ⟨0, -1, 0⟩
  else
    if point.z > center.z then ⟨0, 0, 1⟩ else ⟨0, 0, -1⟩

/-- `src/rectangular_prism.rs` `calculate_normal`. -/
def RectangularPrism.calculate_normal (point center : Vec3)
    (width height depth : ℚ) : Vec3 :=
  let half_width := width / 2
  let half_height := height / 2
  let half_depth := depth / 2
  let x_diff := |point.x - center.x| - half_width
  let y_diff := |point.y - center.y| - half_height
  let z_diff := |point.z - center.z| - half_depth
  if x_diff ≥ y_diff ∧ x_diff ≥ z_diff then
    if point.x > center.x then ⟨1, 0, 0⟩ else ⟨-1, 0, 0⟩
  else if y_diff ≥ x_diff ∧ y_diff ≥ z_diff then
    if point.y > center.y then ⟨0, 1, 0⟩ else ⟨0, -1, 0⟩
  else
    if point.z > center.z then ⟨0, 0, 1⟩ else ⟨0, 0, -1⟩

/-- `Cube::ray_intersect` (slab method). -/
def Cube.ray_intersect (self : Cube) (ray_origin ray_direction : Vec3) :
    Intersect :=
  let half_size := self.side_length / 2
  let mn := self.center - Vec3.mk half_size half_size half_size
  let mx := self.center + Vec3.mk half_size half_size half_size
  let t_min := (mn - ray_origin).component_div ray_direction
  let t_max := (mx - ray_origin).component_div ray_direction
  let t_near := Vec3.mk (min t_min.x t_max.x) (min t_min.y t_max.y)
    (min t_min.z t_max.z)
  let t_far := Vec3.mk (max t_min.x t_max.x) (max t_min.y t_max.y)
    (max t_min.z t_max.z)
  let t_near_val := max (max t_near.x t_near.y) t_near.z
  let t_far_val := min (min t_far.x t_far.y) t_far.z
  if t_near_val > t_far_val ∨ t_far_val < 0 then Intersect.empty
  else
    let t := if t_near_val < 0 then t_far_val else t_near_val
    let intersection_point := ray_origin + ray_direction * t
    let normal :=
      Cube.calculate_normal intersection_point self.center self.side_length
    let u :=
      if normal.x = 1 then (intersection_point.z - mn.z) / self.side_length
      else if normal.x = -1 then
        (intersection_point.z - mx.z) / self.side_length
      else (intersection_point.x - mn.x) / self.side_length
    let v :=
      if normal.y = 1 then (intersection_point.z - mn.z) / self.side_length
      else if normal.y = -1 then
        (intersection_point.z - mx.z) / self.side_length
      else (intersection_point.y - mn.y) / self.side_length
    Intersect.new intersection_point normal t self.material u v

/-- `RectangularPrism::ray_intersect` (slab method). -/
def RectangularPrism.ray_intersect (self : RectangularPrism)
    (ray_origin ray_direction : Vec3) : Intersect :=
  let half_width := self.width / 2
  let half_height := self.height / 2
  let half_depth := self.depth / 2
  let mn := self.center - Vec3.mk half_width half_height half_depth
  let mx := self.center + Vec3.mk half_width half_height half_depth
  let t_min := (mn - ray_origin).component_div ray_direction
  let t_max := (mx - ray_origin).component_div ray_direction
  let t_near := Vec3.mk (min t_min.x t_max.x) (min t_min.y t_max.y)
    (min t_min.z t_max.z)
  let t_far := Vec3.mk (max t_min.x t_max.x) (max t_min.y t_max.y)
    (max t_min.z t_max.z)
  let t_near_val := max (max t_near.x t_near.y) t_near.z
  let t_far_val := min (min t_far.x t_far.y) t_far.z
  if t_near_val > t_far_val ∨ t_far_val < 0 then Intersect.empty
  else
    let t := if t_near_val < 0 then t_far_val else t_near_val
    let intersection_point := ray_origin + ray_direction * t
    let normal := RectangularPrism.calculate_normal intersection_point
      self.center self.width self.height self.depth
    let u :=
      if normal.x = 1 then (intersection_point.z - mn.z) / self.depth
      else if normal.x = -1 then (intersection_point.z - mx.z) / self.depth
      else (intersection_point.x - mn.x) / self.width
    let v :=
      if normal.y = 1 then (intersection_point.z - mn.z) / self.depth
      else if normal.y = -1 then (intersection_point.z - mx.z) / self.depth
      else (intersection_point.y - mn.y) / self.height
    Intersect.new intersection_point normal t self.material u v

/-- The closed set of solids `cast_ray` iterates (`&dyn RayIntersect` in the
source, where the scene holds exactly cubes and rectangular prisms). -/
inductive Solid where
  | cube : Cube → Solid
  | prism : RectangularPrism → Solid
  deriving DecidableEq

/-- Dynamic dispatch of `RayIntersect::ray_intersect`. -/
def Solid.ray_intersect : Solid → Vec3 → Vec3 → Intersect
  | Solid.cube c, o, d => c.ray_intersect o d
  | Solid.prism p, o, d => p.ray_intersect o d

/-- `src/main.rs` `cast_ray` iteration order: all cubes, then all
rectangular prisms (`cubes.iter().chain(rectangles.iter())`). -/
def sceneObjects (cubes : List Cube) (rectangles : List RectangularPrism) :
    List Solid :=
  cubes.map Solid.cube ++ rectangles.map Solid.prism

/-- Whether a distance beats the current z-buffer value (`none` models the
`f32::INFINITY` seed). -/
def ltZb (q : ℚ) : Option ℚ → Bool
  | none => true
  | some z => decide (q < z)

/-- The nearest-hit loop of `cast_ray`: adopt a hit only when it intersects
and its distance is strictly below the z-buffer. -/
def rayLoop (ray_origin ray_direction : Vec3) :
    List Solid → Intersect → Option ℚ → Intersect
  | [], best, _ => best
  | obj :: rest, best, zb =>
    let tmp := obj.ray_intersect ray_origin ray_direction
    if tmp.is_intersecting && ltZb tmp.distance zb then
      rayLoop ray_origin ray_direction rest tmp (some tmp.distance)
    else
      rayLoop ray_origin ray_direction rest best zb

/-- The `Intersect` selected by `cast_ray`'s loop (seed: empty sentinel and
infinite z-buffer). -/
def castRayHit (ray_origin ray_direction : Vec3) (cubes : List Cube)
    (rectangles : List RectangularPrism) : Intersect :=
  rayLoop ray_origin ray_direction (sceneObjects cubes rectangles)
    Intersect.empty none

/-- Texture x pixel index of `cast_ray`:
`(u * texture_width as f32).clamp(0.0, (texture_width - 1) as f32) as usize`. -/
def texture_x_of (texture : Texture) (u : ℚ) : Nat :=
  (⌊min (max (u * (texture.width : ℚ)) 0) ((texture.width - 1 : Nat) : ℚ)⌋).toNat

/-- Texture y pixel index of `cast_ray`. -/
def texture_y_of (texture : Texture) (v : ℚ) : Nat :=
  (⌊min (max (v * (texture.height : ℚ)) 0) ((texture.height - 1 : Nat) : ℚ)⌋).toNat

/-- Byte offset of the sampled texel: `(texture_y * texture_width + texture_x) * 4`. -/
def texture_index_of (texture : Texture) (u v : ℚ) : Nat :=
  (texture_y_of texture v * texture.width + texture_x_of texture u) * 4

/-- The RGB bytes read at the sampled texel (the source slices
`data[idx..idx+4]` and uses the first three bytes; modelled totally with a
zero default, justified by the in-bounds theorem below). -/
def sampled_tex_color (texture : Texture) (u v : ℚ) : Color :=
  let texture_index := texture_index_of texture u v
  Color.new (texture.data.getD texture_index 0)
    (texture.data.getD (texture_index + 1) 0)
    (texture.data.getD (texture_index + 2) 0)

/-- `src/main.rs` `reflect`. -/
def reflect (incident normal : Vec3) : Vec3 :=
  incident - (2 : ℚ) * incident.dot normal * normal

/-- `src/main.rs` `cast_ray`: nearest-hit resolution followed by the
diffuse/texture/specular/emission composition. -/
def cast_ray (ray_origin ray_direction : Vec3) (cubes : List Cube)
    (rectangles : List RectangularPrism) (light : Light) : Color :=
  let intersect := castRayHit ray_origin ray_direction cubes rectangles
  if intersect.is_intersecting = false then Color.new 9 20 55
  else
    let light_dir := (light.position - intersect.point).normalize
    let view_dir := (ray_origin - intersect.point).normalize
    let reflect_dir := reflect (-light_dir) intersect.normal
    let diffuse_intensity := min (max (intersect.normal.dot light_dir) 0) 1
    let diffuse := intersect.material.diffuse * intersect.material.albedo0 *
      diffuse_intensity * light.intensity
    let diffuse :=
      match intersect.material.texture with
      | some texture =>
        let tex_color := sampled_tex_color texture intersect.u intersect.v
        diffuse + tex_color * intersect.material.albedo0 *
          diffuse_intensity * light.intensity
      | none => diffuse
    let specular_intensity :=
      powf (max (view_dir.dot reflect_dir) 0) intersect.material.specular
    let specular := light.color * intersect.material.albedo1 *
      specular_intensity * light.intensity
    let emission := intersect.material.emission * (1.8 : ℚ)
    diffuse + specular + emission

@[simp] theorem Color.add_r (c o : Color) :
    (c + o).r.val = min (c.r.val + o.r.val) 255 := rfl

@[simp] theorem Color.add_g (c o : Color) :
    (c + o).g.val = min (c.g.val + o.g.val) 255 := rfl

@[simp] theorem Color.add_b (c o : Color) :
    (c + o).b.val = min (c.b.val + o.b.val) 255 := rfl

@[simp] theorem Color.mul_r (c : Color) (s : ℚ) :
    (c * s).r = clampByte ((c.r.val : ℚ) * s) := rfl

@[simp] theorem Color.mul_g (c : Color) (s : ℚ) :
    (c * s).g = clampByte ((c.g.val : ℚ) * s) := rfl

@[simp] theorem Color.mul_b (c : Color) (s : ℚ) :
    (c * s).b = clampByte ((c.b.val : ℚ) * s) := rfl

theorem clampByte_nonpos {q : ℚ} (h : q ≤ 0) : clampByte q = 0 := by
  unfold clampByte
  apply Fin.ext
  have h1 : max q 0 = 0 := max_eq_right h
  simp [h1]

/-- C9: channel-wise `Color` addition saturates at 255 (a channel whose true
sum exceeds 255 yields exactly 255, and a sum within range is exact, never
wrapping), and scalar multiplication clamps each channel to `[0, 255]`:
multiplying by `0.0` yields `(0,0,0)` and a negative pre-clamp channel is
clamped to `0`. -/
theorem color_saturating_arithmetic :
    (∀ c o : Color,
      (255 < c.r.val + o.r.val → (c + o).r.val = 255) ∧
      (c.r.val + o.r.val ≤ 255 → (c + o).r.val = c.r.val + o.r.val) ∧
      (255 < c.g.val + o.g.val → (c + o).g.val = 255) ∧
      (c.g.val + o.g.val ≤ 255 → (c + o).g.val = c.g.val + o.g.val) ∧
      (255 < c.b.val + o.b.val → (c + o).b.val = 255) ∧
      (c.b.val + o.b.val ≤ 255 → (c + o).b.val = c.b.val + o.b.val)) ∧
    (∀ (c : Color) (s : ℚ),
      (c * s).r.val ≤ 255 ∧ (c * s).g.val ≤ 255 ∧ (c * s).b.val ≤ 255) ∧
    (∀ c : Color, c * (0 : ℚ) = Color.new 0 0 0) ∧
    (∀ (c : Color) (s : ℚ),
      ((c.r.val : ℚ) * s < 0 → (c * s).r.val = 0) ∧
      ((c.g.val : ℚ) * s < 0 → (c * s).g.val = 0) ∧
      ((c.b.val : ℚ) * s < 0 → (c * s).b.val = 0)) := by
  refine ⟨fun c o => ?_, fun c s => ?_, fun c => ?_, fun c s => ?_⟩
  · refine ⟨fun h => ?_, fun h => ?_, fun h => ?_, fun h => ?_,
      fun h => ?_, fun h => ?_⟩ <;> simp <;> omega
  · refine ⟨?_, ?_, ?_⟩ <;>
      [have h := ((c * s).r).isLt; have h := ((c * s).g).isLt;
       have h := ((c * s).b).isLt] <;> omega
  · cases c with
    | mk r g b =>
      show Color.mk (clampByte _) (clampByte _) (clampByte _) = _
      rw [mul_zero, mul_zero, mul_zero, clampByte_nonpos le_rfl]
      rfl
  · refine ⟨fun h => ?_, fun h => ?_, fun h => ?_⟩ <;>
      simp [clampByte_nonpos (le_of_lt h)]

/-- Witness for C9 at concrete colors and scalars. -/
theorem color_saturating_arithmetic_witness :
    (Color.new 200 201 202 + Color.new 100 101 102).r.val = 255 ∧
    (Color.new 200 201 202 + Color.new 100 101 102).g.val = 255 ∧
    (Color.new 200 201 202 + Color.new 100 101 102).b.val = 255 ∧
    (Color.new 1 2 3 + Color.new 4 5 6).r.val = 5 ∧
    (Color.new 1 2 3 + Color.new 4 5 6).g.val = 7 ∧
    (Color.new 1 2 3 + Color.new 4 5 6).b.val = 9 ∧
    Color.new 3 4 5 * (0 : ℚ) = Color.new 0 0 0 ∧
    (Color.new 3 4 5 * (-1 : ℚ)).r.val = 0 ∧
    (Color.new 3 4 5 * (-1 : ℚ)).g.val = 0 ∧
    (Color.new 3 4 5 * (-1 : ℚ)).b.val = 0 :=
  ⟨(color_saturating_arithmetic.1 _ _).1 (by decide),
   (color_saturating_arithmetic.1 _ _).2.2.1 (by decide),
   (color_saturating_arithmetic.1 _ _).2.2.2.2.1 (by decide),
   (color_saturating_arithmetic.1 _ _).2.1 (by decide),
   (color_saturating_arithmetic.1 _ _).2.2.2.1 (by decide),
   (color_saturating_arithmetic.1 _ _).2.2.2.2.2 (by decide),
   color_saturating_arithmetic.2.2.1 _,
   (color_saturating_arithmetic.2.2.2 _ _).1 (by
     have h : (Color.new 3 4 5).r.val = 3 := rfl
     rw [h]; norm_num),
   (color_saturating_arithmetic.2.2.2 _ _).2.1 (by
     have h : (Color.new 3 4 5).g.val = 4 := rfl
     rw [h]; norm_num),
   (color_saturating_arithmetic.2.2.2 _ _).2.2 (by
     have h : (Color.new 3 4 5).b.val = 5 := rfl
     rw [h]; norm_num)⟩

theorem lor_eq_add_of_lt {a b k : Nat} (hb : b < 2 ^ k) :
    (2 ^ k * a) ||| b = 2 ^ k * a + b :=
  (Nat.mul_add_lt_is_or hb a).symm

theorem and255_eq_mod (n : Nat) : n &&& 255 = n % 256 := by
  have h := Nat.and_pow_two_sub_one_eq_mod n 8
  norm_num at h
  exact h

theorem shift16_eq_div (n : Nat) : n >>> 16 = n / 65536 := by
  rw [Nat.shiftRight_eq_div_pow]

theorem shift8_eq_div (n : Nat) : n >>> 8 = n / 256 := by
  rw [Nat.shiftRight_eq_div_pow]

theorem Color.to_hex_eq (c : Color) :
    c.to_hex = c.r.val * 65536 + c.g.val * 256 + c.b.val := by
  unfold Color.to_hex
  rw [Nat.shiftLeft_eq, Nat.shiftLeft_eq]
  have h1 : c.r.val * 2 ^ 16 = 2 ^ 16 * c.r.val := Nat.mul_comm _ _
  have h2 : c.g.val * 2 ^ 8 < 2 ^ 16 := by
    have := c.g.isLt
    norm_num
    omega
  rw [h1, lor_eq_add_of_lt h2]
  have h3 : 2 ^ 16 * c.r.val + c.g.val * 2 ^ 8 =
      2 ^ 8 * (2 ^ 8 * c.r.val + c.g.val) := by ring
  have h4 : c.b.val < 2 ^ 8 := by
    have := c.b.isLt
    norm_num
  rw [h3, lor_eq_add_of_lt h4]
  ring

@[simp] theorem Color.from_hex_r (h : Nat) :
    (Color.from_hex h).r.val = (h >>> 16) &&& 0xFF := rfl

@[simp] theorem Color.from_hex_g (h : Nat) :
    (Color.from_hex h).g.val = (h >>> 8) &&& 0xFF := rfl

@[simp] theorem Color.from_hex_b (h : Nat) :
    (Color.from_hex h).b.val = h &&& 0xFF := rfl

theorem Color.ext_val {c o : Color} (h1 : c.r.val = o.r.val)
    (h2 : c.g.val = o.g.val) (h3 : c.b.val = o.b.val) : c = o := by
  cases c with
  | mk x y z =>
    cases o with
    | mk x2 y2 z2 =>
      simp only [Color.mk.injEq]
      exact ⟨Fin.ext h1, Fin.ext h2, Fin.ext h3⟩

/-- C10: `from_hex` inverts `to_hex` on every `Color`, `to_hex` always lies
below `2^24`, and `to_hex ∘ from_hex` keeps exactly the low 24 bits of the
input (the top bits of a `u32` are ignored by `from_hex`). -/
theorem color_hex_roundtrip :
    (∀ c : Color,
      Color.from_hex (Color.to_hex c) = c ∧ Color.to_hex c < 2 ^ 24) ∧
    (∀ h : Nat, Color.to_hex (Color.from_hex h) = h &&& 0xFFFFFF) := by
  constructor
  · intro c
    have hr := c.r.isLt
    have hg := c.g.isLt
    have hb := c.b.isLt
    have hto := Color.to_hex_eq c
    constructor
    · apply Color.ext_val
      · rw [Color.from_hex_r, and255_eq_mod, shift16_eq_div, hto]
        omega
      · rw [Color.from_hex_g, and255_eq_mod, shift8_eq_div, hto]
        omega
      · rw [Color.from_hex_b, and255_eq_mod, hto]
        omega
    · rw [hto]
      have h24 : (2 : Nat) ^ 24 = 16777216 := by norm_num
      rw [h24]
      omega
  · intro h
    rw [Color.to_hex_eq, Color.from_hex_r, Color.from_hex_g,
      Color.from_hex_b, and255_eq_mod, and255_eq_mod, and255_eq_mod,
      shift16_eq_div, shift8_eq_div]
    have h24 := Nat.and_pow_two_sub_one_eq_mod h 24
    norm_num at h24
    rw [h24]
    omega

/-- C8: a `Cube` with side length `s` and a `RectangularPrism` with
`width = height = depth = s`, the same center and the same material, return
identical `Intersect` results (flag, hit point, normal, distance, `u`, `v`)
for every ray. -/
theorem cube_prism_agreement (center : Vec3) (s : ℚ) (mat : Material)
    (o d : Vec3) :
    (Cube.mk center s mat).ray_intersect o d =
      (RectangularPrism.mk center s s s mat).ray_intersect o d := rfl

/-- C4: the derived surface normal takes, per axis, the boundary distance
`|hit - center| - half_extent`, picks the axis with the largest value (ties
broken in X, then Y, then Z order via `>=` comparisons), orients by the
sign of `hit - center` on that axis, and is always exactly one of the six
unit axis vectors; the cube version is the equal-extents special case. -/
theorem calculate_normal_spec (point center : Vec3) (w h dpt : ℚ) :
    (RectangularPrism.calculate_normal point center w h dpt =
      (let x_diff := |point.x - center.x| - w / 2
       let y_diff := |point.y - center.y| - h / 2
       let z_diff := |point.z - center.z| - dpt / 2
       if x_diff ≥ y_diff ∧ x_diff ≥ z_diff then
         if point.x > center.x then ⟨1, 0, 0⟩ else ⟨-1, 0, 0⟩
       else if y_diff ≥ x_diff ∧ y_diff ≥ z_diff then
         if point.y > center.y then ⟨0, 1, 0⟩ else ⟨0, -1, 0⟩
       else if point.z > center.z then ⟨0, 0, 1⟩ else ⟨0, 0, -1⟩)) ∧
    RectangularPrism.calculate_normal point center w h dpt ∈
      [Vec3.mk 1 0 0, Vec3.mk (-1) 0 0, Vec3.mk 0 1 0, Vec3.mk 0 (-1) 0,
       Vec3.mk 0 0 1, Vec3.mk 0 0 (-1)] ∧
    Cube.calculate_normal point center w =
      RectangularPrism.calculate_normal point center w w w := by
  refine ⟨rfl, ?_, rfl⟩
  simp only [RectangularPrism.calculate_normal]
  split_ifs <;> simp

/-- Per-axis slab entry value from the claim: the minimum of the two
slab-crossing t values. -/
def slab_near (mn mx o d : ℚ) : ℚ := min ((mn - o) / d) ((mx - o) / d)

/-- Per-axis slab exit value from the claim: the maximum of the two
slab-crossing t values. -/
def slab_far (mn mx o d : ℚ) : ℚ := max ((mn - o) / d) ((mx - o) / d)

/-- The claim's `t_near` for a cube: maximum of the three per-axis nears. -/
def cube_t_near (c : Cube) (o d : Vec3) : ℚ :=
  max (max
    (slab_near (c.center.x - c.side_length / 2) (c.center.x + c.side_length / 2) o.x d.x)
    (slab_near (c.center.y - c.side_length / 2) (c.center.y + c.side_length / 2) o.y d.y))
    (slab_near (c.center.z - c.side_length / 2) (c.center.z + c.side_length / 2) o.z d.z)

/-- The claim's `t_far` for a cube: minimum of the three per-axis fars. -/
def cube_t_far (c : Cube) (o d : Vec3) : ℚ :=
  min (min
    (slab_far (c.center.x - c.side_length / 2) (c.center.x + c.side_length / 2) o.x d.x)
    (slab_far (c.center.y - c.side_length / 2) (c.center.y + c.side_length / 2) o.y d.y))
    (slab_far (c.center.z - c.side_length / 2) (c.center.z + c.side_length / 2) o.z d.z)

/-- The claim's `t_near` for a rectangular prism. -/
def prism_t_near (p : RectangularPrism) (o d : Vec3) : ℚ :=
  max (max
    (slab_near (p.center.x - p.width / 2) (p.center.x + p.width / 2) o.x d.x)
    (slab_near (p.center.y - p.height / 2) (p.center.y + p.height / 2) o.y d.y))
    (slab_near (p.center.z - p.depth / 2) (p.center.z + p.depth / 2) o.z d.z)

/-- The claim's `t_far` for a rectangular prism. -/
def prism_t_far (p : RectangularPrism) (o d : Vec3) : ℚ :=
  min (min
    (slab_far (p.center.x - p.width / 2) (p.center.x + p.width / 2) o.x d.x)
    (slab_far (p.center.y - p.height / 2) (p.center.y + p.height / 2) o.y d.y))
    (slab_far (p.center.z - p.depth / 2) (p.center.z + p.depth / 2) o.z d.z)

/-- C1: `ray_intersect` returns the empty sentinel exactly when
`t_near > t_far` or `t_far < 0`; otherwise the hit distance is `t_far`
when `t_near < 0` (origin inside: exit point) and `t_near` otherwise, and
the hit point is `origin + direction * t` — for both box shapes. -/
theorem ray_intersect_slab_condition (c : Cube) (p : RectangularPrism)
    (o d : Vec3) (hdx : d.x ≠ 0) (hdy : d.y ≠ 0) (hdz : d.z ≠ 0) :
    (c.ray_intersect o d = Intersect.empty ↔
      cube_t_near c o d > cube_t_far c o d ∨ cube_t_far c o d < 0) ∧
    (¬(cube_t_near c o d > cube_t_far c o d ∨ cube_t_far c o d < 0) →
      (c.ray_intersect o d).distance =
        (if cube_t_near c o d < 0 then cube_t_far c o d
         else cube_t_near c o d) ∧
      (c.ray_intersect o d).point =
        o + d * (if cube_t_near c o d < 0 then cube_t_far c o d
                 else cube_t_near c o d)) ∧
    (p.ray_intersect o d = Intersect.empty ↔
      prism_t_near p o d > prism_t_far p o d ∨ prism_t_far p o d < 0) ∧
    (¬(prism_t_near p o d > prism_t_far p o d ∨ prism_t_far p o d < 0) →
      (p.ray_intersect o d).distance =
        (if prism_t_near p o d < 0 then prism_t_far p o d
         else prism_t_near p o d) ∧
      (p.ray_intersect o d).point =
        o + d * (if prism_t_near p o d < 0 then prism_t_far p o d
                 else prism_t_near p o d)) := by
  refine ⟨?_, ?_, ?_, ?_⟩
  · simp only [Cube.ray_intersect]
    split
    · rename_i h
      exact iff_of_true rfl h
    · rename_i h
      exact iff_of_false (by simp [Intersect.new, Intersect.empty]) h
  · intro h
    simp only [Cube.ray_intersect]
    split
    · rename_i hcond
      exact absurd hcond h
    · exact ⟨rfl, rfl⟩
  · simp only [RectangularPrism.ray_intersect]
    split
    · rename_i h
      exact iff_of_true rfl h
    · rename_i h
      exact iff_of_false (by simp [Intersect.new, Intersect.empty]) h
  · intro h
    simp only [RectangularPrism.ray_intersect]
    split
    · rename_i hcond
      exact absurd hcond h
    · exact ⟨rfl, rfl⟩

theorem ray_intersect_slab_condition_witness :
    (Cube.mk ⟨0, 0, 0⟩ 2 Material.black).ray_intersect ⟨3, 3, 3⟩
        ⟨-1, -1, -1⟩ ≠ Intersect.empty ∧
    ((Cube.mk ⟨0, 0, 0⟩ 2 Material.black).ray_intersect ⟨3, 3, 3⟩
        ⟨-1, -1, -1⟩).distance = 2 := by
  have h := ray_intersect_slab_condition (Cube.mk ⟨0, 0, 0⟩ 2 Material.black)
      (RectangularPrism.mk ⟨0, 0, 0⟩ 2 2 2 Material.black) ⟨3, 3, 3⟩
      ⟨-1, -1, -1⟩ (by norm_num) (by norm_num) (by norm_num)
  have hcond : ¬(cube_t_near (Cube.mk ⟨0, 0, 0⟩ 2 Material.black) ⟨3, 3, 3⟩
        ⟨-1, -1, -1⟩ >
      cube_t_far (Cube.mk ⟨0, 0, 0⟩ 2 Material.black) ⟨3, 3, 3⟩ ⟨-1, -1, -1⟩ ∨
      cube_t_far (Cube.mk ⟨0, 0, 0⟩ 2 Material.black) ⟨3, 3, 3⟩ ⟨-1, -1, -1⟩
        < 0) := by
    norm_num [cube_t_near, cube_t_far, slab_near, slab_far, min_def, max_def]
  constructor
  · intro he
    exact hcond (h.1.mp he)
  · rw [(h.2.1 hcond).1]
    norm_num [cube_t_near, cube_t_far, slab_near, slab_far, min_def, max_def]

/-- C5: on a hit, the texture coordinates are keyed on the resolved
normal's X and Y components — `u` uses the hit point's Z against the box
min (normal.x = +1) or max (normal.x = -1) corner over the depth extent,
falling back to X over the width extent; `v` likewise with the height
extent as fallback; for a `Cube` every extent is the single side length. -/
theorem ray_intersect_uv_spec (c : Cube) (p : RectangularPrism) (o d : Vec3)
    (hc : (c.ray_intersect o d).is_intersecting = true)
    (hp : (p.ray_intersect o d).is_intersecting = true) :
    ((c.ray_intersect o d).u =
      (if (c.ray_intersect o d).normal.x = 1 then
        ((c.ray_intersect o d).point.z - (c.center.z - c.side_length / 2)) /
          c.side_length
      else if (c.ray_intersect o d).normal.x = -1 then
        ((c.ray_intersect o d).point.z - (c.center.z + c.side_length / 2)) /
          c.side_length
      else
        ((c.ray_intersect o d).point.x - (c.center.x - c.side_length / 2)) /
          c.side_length) ∧
    (c.ray_intersect o d).v =
      (if (c.ray_intersect o d).normal.y = 1 then
        ((c.ray_intersect o d).point.z - (c.center.z - c.side_length / 2)) /
          c.side_length
      else if (c.ray_intersect o d).normal.y = -1 then
        ((c.ray_intersect o d).point.z - (c.center.z + c.side_length / 2)) /
          c.side_length
      else
        ((c.ray_intersect o d).point.y - (c.center.y - c.side_length / 2)) /
          c.side_length)) ∧
    ((p.ray_intersect o d).u =
      (if (p.ray_intersect o d).normal.x = 1 then
        ((p.ray_intersect o d).point.z - (p.center.z - p.depth / 2)) / p.depth
      else if (p.ray_intersect o d).normal.x = -1 then
        ((p.ray_intersect o d).point.z - (p.center.z + p.depth / 2)) / p.depth
      else
        ((p.ray_intersect o d).point.x - (p.center.x - p.width / 2)) /
          p.width) ∧
    (p.ray_intersect o d).v =
      (if (p.ray_intersect o d).normal.y = 1 then
        ((p.ray_intersect o d).point.z - (p.center.z - p.depth / 2)) / p.depth
      else if (p.ray_intersect o d).normal.y = -1 then
        ((p.ray_intersect o d).point.z - (p.center.z + p.depth / 2)) / p.depth
      else
        ((p.ray_intersect o d).point.y - (p.center.y - p.height / 2)) /
          p.height)) := by
  constructor
  · simp only [Cube.ray_intersect] at hc ⊢
    split at hc
    · simp [Intersect.empty] at hc
    · rename_i hcond
      rw [if_neg hcond]
      exact ⟨rfl, rfl⟩
  · simp only [RectangularPrism.ray_intersect] at hp ⊢
    split at hp
    · simp [Intersect.empty] at hp
    · rename_i hcond
      rw [if_neg hcond]
      exact ⟨rfl, rfl⟩

theorem ray_intersect_uv_spec_witness :
    ((Cube.mk ⟨0, 0, 0⟩ 2 Material.black).ray_intersect ⟨3, 3, 3⟩
      ⟨-1, -1, -1⟩).u = 1 := by
  have h := ray_intersect_uv_spec (Cube.mk ⟨0, 0, 0⟩ 2 Material.black)
      (RectangularPrism.mk ⟨0, 0, 0⟩ 2 2 2 Material.black) ⟨3, 3, 3⟩
      ⟨-1, -1, -1⟩
      (by norm_num [Cube.ray_intersect, Vec3.component_div, Intersect.new,
        Intersect.empty])
      (by norm_num [RectangularPrism.ray_intersect, Vec3.component_div,
        Intersect.new, Intersect.empty])
  rw [h.1.1]
  norm_num [Cube.ray_intersect, Cube.calculate_normal, Vec3.component_div,
    Intersect.new, Intersect.empty, min_def, max_def]

/-- The list of intersecting results produced by one pass of `cast_ray`'s
loop, in iteration order. -/
def sceneHits (o d : Vec3) (cubes : List Cube)
    (rectangles : List RectangularPrism) : List Intersect :=
  ((sceneObjects cubes rectangles).map (fun s => s.ray_intersect o d)).filter
    (fun t => t.is_intersecting)

/-- Reference selection from the spec's words: keep the current best and
replace it only when a later candidate's distance is strictly smaller. -/
def pickNearest (best : Intersect) : List Intersect → Intersect
  | [] => best
  | t :: rest =>
    if t.distance < best.distance then pickNearest t rest
    else pickNearest best rest

theorem rayLoop_some (o d : Vec3) (l : List Solid) (best : Intersect) :
    rayLoop o d l best (some best.distance) =
      pickNearest best ((l.map (fun s => s.ray_intersect o d)).filter
        (fun t => t.is_intersecting)) := by
  induction l generalizing best with
  | nil => rfl
  | cons s rest ih =>
    simp only [rayLoop, List.map_cons, List.filter_cons]
    by_cases h1 : (s.ray_intersect o d).is_intersecting
    · by_cases h2 : (s.ray_intersect o d).distance < best.distance
      · simp [h1, h2, ltZb, pickNearest, ih]
      · simp [h1, h2, ltZb, pickNearest, ih]
    · simp [h1, ih]

theorem rayLoop_none (o d : Vec3) (l : List Solid) :
    rayLoop o d l Intersect.empty none =
      (match (l.map (fun s => s.ray_intersect o d)).filter
          (fun t => t.is_intersecting) with
        | [] => Intersect.empty
        | t :: rest => pickNearest t rest) := by
  induction l with
  | nil => rfl
  | cons s rest ih =>
    simp only [rayLoop, List.map_cons, List.filter_cons]
    by_cases h1 : (s.ray_intersect o d).is_intersecting
    · simp [h1, ltZb, rayLoop_some]
    · simp [h1, ih]

theorem pickNearest_spec (l : List Intersect) (best : Intersect) :
    pickNearest best l ∈ best :: l ∧
    (∀ t ∈ best :: l, (pickNearest best l).distance ≤ t.distance) ∧
    (best :: l).find?
        (fun t => decide (t.distance = (pickNearest best l).distance)) =
      some (pickNearest best l) := by
  induction l generalizing best with
  | nil =>
    refine ⟨List.mem_singleton.mpr rfl, ?_, ?_⟩
    · intro t ht
      rw [List.mem_singleton] at ht
      rw [ht]
      exact le_refl best.distance
    · rw [List.find?_cons_of_pos _ (by simp [pickNearest])]
      rfl
  | cons a l ih =>
    by_cases hd : a.distance < best.distance
    · have hpick : pickNearest best (a :: l) = pickNearest a l := by
        simp [pickNearest, hd]
      obtain ⟨ihm, ihmin, ihfind⟩ := ih a
      have hrd : (pickNearest a l).distance ≤ a.distance :=
        ihmin a (List.mem_cons_self _ _)
      have hlt : (pickNearest a l).distance < best.distance :=
        lt_of_le_of_lt hrd hd
      refine ⟨?_, ?_, ?_⟩
      · rw [hpick]
        exact List.mem_cons_of_mem _ ihm
      · intro t ht
        rw [hpick]
        rcases List.mem_cons.mp ht with h1 | h2
        · rw [h1]
          exact le_of_lt hlt
        · exact ihmin t h2
      · rw [hpick, List.find?_cons_of_neg _ (by simp [hlt.ne'])]
        exact ihfind
    · have hpick : pickNearest best (a :: l) = pickNearest best l := by
        simp [pickNearest, hd]
      obtain ⟨ihm, ihmin, ihfind⟩ := ih best
      have hrb : (pickNearest best l).distance ≤ best.distance :=
        ihmin best (List.mem_cons_self _ _)
      have hba : best.distance ≤ a.distance := not_lt.mp hd
      refine ⟨?_, ?_, ?_⟩
      · rw [hpick]
        rcases List.mem_cons.mp ihm with h1 | h2
        · rw [h1]
          exact List.mem_cons_self _ _
        · exact List.mem_cons_of_mem _ (List.mem_cons_of_mem _ h2)
      · intro t ht
        rw [hpick]
        rcases List.mem_cons.mp ht with h1 | h2
        · rw [h1]
          exact hrb
        · rcases List.mem_cons.mp h2 with h3 | h4
          · rw [h3]
            exact le_trans hrb hba
          · exact ihmin t (List.mem_cons_of_mem _ h4)
      · rw [hpick]
        by_cases hb : best.distance = (pickNearest best l).distance
        · have hfb : (best :: l).find?
              (fun t => decide (t.distance = (pickNearest best l).distance)) =
                some best :=
            List.find?_cons_of_pos _ (by simp [hb])
          have heq : best = pickNearest best l :=
            Option.some_inj.mp (hfb.symm.trans ihfind)
          rw [List.find?_cons_of_pos _ (by simp [hb])]
          exact congrArg some heq
        · have hra : (pickNearest best l).distance < best.distance :=
            lt_of_le_of_ne hrb (fun h => hb h.symm)
          have hfl := (List.find?_cons_of_neg
              (p := fun t => decide
                (t.distance = (pickNearest best l).distance))
              l (by simp [hra.ne'])).symm.trans ihfind
          rw [List.find?_cons_of_neg _ (by simp [hra.ne']),
            List.find?_cons_of_neg _ (by simp [(lt_of_lt_of_le hra hba).ne'])]
          exact hfl

/-- C2: `cast_ray`'s loop selects, among the intersecting results taken in
iteration order (all cubes then all rectangular prisms), a hit of minimum
distance, and because replacement requires a strictly smaller distance the
selected hit is the first one attaining that minimum distance. -/
theorem cast_ray_nearest_hit (o d : Vec3) (cubes : List Cube)
    (rectangles : List RectangularPrism)
    (hne : sceneHits o d cubes rectangles ≠ []) :
    castRayHit o d cubes rectangles ∈ sceneHits o d cubes rectangles ∧
    (∀ t ∈ sceneHits o d cubes rectangles,
      (castRayHit o d cubes rectangles).distance ≤ t.distance) ∧
    (sceneHits o d cubes rectangles).find?
        (fun t => decide
          (t.distance = (castRayHit o d cubes rectangles).distance)) =
      some (castRayHit o d cubes rectangles) := by
  obtain ⟨t, rest, hsplit⟩ : ∃ t rest,
      sceneHits o d cubes rectangles = t :: rest := by
    cases h : sceneHits o d cubes rectangles with
    | nil => exact absurd h hne
    | cons t rest => exact ⟨t, rest, rfl⟩
  have hb : castRayHit o d cubes rectangles = pickNearest t rest := by
    unfold castRayHit
    rw [rayLoop_none]
    unfold sceneHits at hsplit
    rw [hsplit]
  rw [hb, hsplit]
  exact pickNearest_spec rest t

/-- Witness for C2 on a one-cube scene whose hit list is nonempty. -/
theorem cast_ray_nearest_hit_witness :
    castRayHit ⟨3, 3, 3⟩ ⟨-1, -1, -1⟩ [Cube.mk ⟨0, 0, 0⟩ 2 Material.black] [] ∈
      sceneHits ⟨3, 3, 3⟩ ⟨-1, -1, -1⟩ [Cube.mk ⟨0, 0, 0⟩ 2 Material.black]
        [] :=
  (cast_ray_nearest_hit ⟨3, 3, 3⟩ ⟨-1, -1, -1⟩
    [Cube.mk ⟨0, 0, 0⟩ 2 Material.black] []
    (by
      have hval : ((Solid.cube (Cube.mk ⟨0, 0, 0⟩ 2 Material.black)).ray_intersect
          ⟨3, 3, 3⟩ ⟨-1, -1, -1⟩).is_intersecting = true := by
        norm_num [Solid.ray_intersect, Cube.ray_intersect, Vec3.component_div,
          Intersect.new, Intersect.empty]
      simp [sceneHits, sceneObjects, List.filter_cons, hval])).1

/-- C6: when every solid in the scene reports no intersection for a ray,
`cast_ray` returns exactly the fixed background color `(9, 20, 55)`,
independently of the light and of the solids' materials. -/
theorem cast_ray_background (o d : Vec3) (cubes : List Cube)
    (rectangles : List RectangularPrism) (light : Light)
    (h : ∀ s ∈ sceneObjects cubes rectangles,
      (s.ray_intersect o d).is_intersecting = false) :
    cast_ray o d cubes rectangles light = Color.new 9 20 55 := by
  have hhits : sceneHits o d cubes rectangles = [] := by
    unfold sceneHits
    rw [List.filter_eq_nil_iff]
    intro t ht
    simp only [List.mem_map] at ht
    obtain ⟨s, hs, rfl⟩ := ht
    simp [h s hs]
  have hempty : castRayHit o d cubes rectangles = Intersect.empty := by
    unfold castRayHit
    rw [rayLoop_none]
    unfold sceneHits at hhits
    rw [hhits]
  unfold cast_ray
  rw [hempty]
  rfl

/-- Witness for C6: a ray pointing away from a one-cube scene yields the
background color. -/
theorem cast_ray_background_witness :
    cast_ray ⟨5, 5, 5⟩ ⟨1, 1, 1⟩ [Cube.mk ⟨0, 0, 0⟩ 2 Material.black] []
        (Light.mk ⟨0, 0, 0⟩ (Color.new 1 2 3) 1) = Color.new 9 20 55 := by
  apply cast_ray_background
  intro s hs
  simp only [sceneObjects, List.map_cons, List.map_nil, List.append_nil,
    List.mem_singleton] at hs
  rw [hs]
  norm_num [Solid.ray_intersect, Cube.ray_intersect, Vec3.component_div,
    Intersect.new, Intersect.empty, min_def, max_def]

theorem tex_index_bound {tx ty w h : Nat} (hw : 1 ≤ w) (hh : 1 ≤ h)
    (htx : tx ≤ w - 1) (hty : ty ≤ h - 1) :
    (ty * w + tx) * 4 + 3 < w * h * 4 := by
  have h1 : ty * w ≤ (h - 1) * w := Nat.mul_le_mul_right w hty
  have h2 : (h - 1) * w + w = h * w := by
    cases h with
    | zero => omega
    | succ n => rw [Nat.succ_sub_one, Nat.succ_mul]
  have hc : w * h = h * w := Nat.mul_comm w h
  omega

theorem tex_last_index {w h : Nat} (hw : 1 ≤ w) (hh : 1 ≤ h) :
    ((h - 1) * w + (w - 1)) * 4 = (w * h - 1) * 4 := by
  have h2 : (h - 1) * w + w = h * w := by
    cases h with
    | zero => omega
    | succ n => rw [Nat.succ_sub_one, Nat.succ_mul]
  have hc : w * h = h * w := Nat.mul_comm w h
  omega

theorem texture_x_le (tex : Texture) (u : ℚ) :
    texture_x_of tex u ≤ tex.width - 1 := by
  unfold texture_x_of
  have h1 : min (max (u * (tex.width : ℚ)) 0) ((tex.width - 1 : Nat) : ℚ) ≤
      ((tex.width - 1 : Nat) : ℚ) := min_le_right _ _
  have h2 := Int.floor_le_floor h1
  rw [Int.floor_natCast] at h2
  omega

theorem texture_y_le (tex : Texture) (v : ℚ) :
    texture_y_of tex v ≤ tex.height - 1 := by
  unfold texture_y_of
  have h1 : min (max (v * (tex.height : ℚ)) 0) ((tex.height - 1 : Nat) : ℚ) ≤
      ((tex.height - 1 : Nat) : ℚ) := min_le_right _ _
  have h2 := Int.floor_le_floor h1
  rw [Int.floor_natCast] at h2
  omega

theorem texture_x_zero (tex : Texture) : texture_x_of tex 0 = 0 := by
  unfold texture_x_of
  rw [zero_mul, max_self, min_eq_left (Nat.cast_nonneg _)]
  simp

theorem texture_y_zero (tex : Texture) : texture_y_of tex 0 = 0 := by
  unfold texture_y_of
  rw [zero_mul, max_self, min_eq_left (Nat.cast_nonneg _)]
  simp

theorem texture_x_one (tex : Texture) : texture_x_of tex 1 = tex.width - 1 := by
  unfold texture_x_of
  rw [one_mul, max_eq_left (Nat.cast_nonneg _),
    min_eq_right (Nat.cast_le.mpr (Nat.sub_le _ _)), Int.floor_natCast]
  simp

theorem texture_y_one (tex : Texture) :
    texture_y_of tex 1 = tex.height - 1 := by
  unfold texture_y_of
  rw [one_mul, max_eq_left (Nat.cast_nonneg _),
    min_eq_right (Nat.cast_le.mpr (Nat.sub_le _ _)), Int.floor_natCast]
  simp

/-- C7: for a texture with `width ≥ 1`, `height ≥ 1` and
`data.length = width * height * 4`, the clamped-and-truncated sample index
stays inside the data buffer for every `u`, `v` (even far outside `[0,1]`);
`(u,v) = (0,0)` reads the first texel and `(u,v) = (1,1)` the last. -/
theorem texture_sampling_in_bounds (tex : Texture) (u v : ℚ)
    (hw : 1 ≤ tex.width) (hh : 1 ≤ tex.height)
    (hlen : tex.data.length = tex.width * tex.height * 4) :
    texture_index_of tex u v + 3 < tex.data.length ∧
    texture_index_of tex 0 0 = 0 ∧
    texture_index_of tex 1 1 = (tex.width * tex.height - 1) * 4 := by
  refine ⟨?_, ?_, ?_⟩
  · rw [hlen]
    unfold texture_index_of
    exact tex_index_bound hw hh (texture_x_le tex u) (texture_y_le tex v)
  · unfold texture_index_of
    rw [texture_x_zero, texture_y_zero]
    omega
  · unfold texture_index_of
    rw [texture_x_one, texture_y_one]
    exact tex_last_index hw hh

/-- Witness for C7 on a 2x2 RGBA texture with out-of-range `u`, `v`. -/
theorem texture_sampling_in_bounds_witness :
    texture_index_of (Texture.mk (List.replicate 16 (0 : Fin 256)) 2 2)
        7 (-3) + 3 <
      (Texture.mk (List.replicate 16 (0 : Fin 256)) 2 2).data.length ∧
    texture_index_of (Texture.mk (List.replicate 16 (0 : Fin 256)) 2 2)
        0 0 = 0 ∧
    texture_index_of (Texture.mk (List.replicate 16 (0 : Fin 256)) 2 2)
        1 1 = (2 * 2 - 1) * 4 :=
  texture_sampling_in_bounds (Texture.mk (List.replicate 16 (0 : Fin 256)) 2 2)
    7 (-3) (by norm_num) (by norm_num) (by simp)

/-- C3: for a ray that hits, `cast_ray` returns
`diffuse + specular + emission` under saturating color addition: the base
diffuse term is `material.diffuse * albedo[0] * clamp(normal.light_dir,0,1)
* light.intensity`; when a texture is present a second diffuse term with
the sampled texel color under the same weighting is ADDED on top (never
replacing the base term); the specular term is `light.color * albedo[1] *
max(view_dir.reflect_dir,0)^material.specular * light.intensity`; and the
emission term is `material.emission * 1.8`. -/
theorem cast_ray_shading (o d : Vec3) (cubes : List Cube)
    (rectangles : List RectangularPrism) (light : Light)
    (h : (castRayHit o d cubes rectangles).is_intersecting = true) :
    cast_ray o d cubes rectangles light =
      (let i := castRayHit o d cubes rectangles
       let light_dir := (light.position - i.point).normalize
       let view_dir := (o - i.point).normalize
       let reflect_dir := reflect (-light_dir) i.normal
       let diffuse_intensity := min (max (i.normal.dot light_dir) 0) 1
       let base_diffuse := i.material.diffuse * i.material.albedo0 *
         diffuse_intensity * light.intensity
       let diffuse :=
         match i.material.texture with
         | some texture =>
           base_diffuse + sampled_tex_color texture i.u i.v *
             i.material.albedo0 * diffuse_intensity * light.intensity
         | none => base_diffuse
       let specular := light.color * i.material.albedo1 *
         powf (max (view_dir.dot reflect_dir) 0) i.material.specular *
         light.intensity
       let emission := i.material.emission * (1.8 : ℚ)
       diffuse + specular + emission) := by
  unfold cast_ray
  rw [if_neg (by simp [h])]

/-- Witness for C3: the shading decomposition instantiated on a one-cube
scene actually hit by the ray. -/
theorem cast_ray_shading_witness :
    (castRayHit ⟨3, 3, 3⟩ ⟨-1, -1, -1⟩ [Cube.mk ⟨0, 0, 0⟩ 2 Material.black]
      []).is_intersecting = true ∧
    cast_ray ⟨3, 3, 3⟩ ⟨-1, -1, -1⟩ [Cube.mk ⟨0, 0, 0⟩ 2 Material.black] []
        (Light.mk ⟨5, 1, 1⟩ (Color.new 200 100 50) 1) =
      (let i := castRayHit ⟨3, 3, 3⟩ ⟨-1, -1, -1⟩
         [Cube.mk ⟨0, 0, 0⟩ 2 Material.black] []
       let light_dir := ((Light.mk ⟨5, 1, 1⟩ (Color.new 200 100 50)
         1).position - i.point).normalize
       let view_dir := (Vec3.mk 3 3 3 - i.point).normalize
       let reflect_dir := reflect (-light_dir) i.normal
       let diffuse_intensity := min (max (i.normal.dot light_dir) 0) 1
       let base_diffuse := i.material.diffuse * i.material.albedo0 *
         diffuse_intensity *
         (Light.mk ⟨5, 1, 1⟩ (Color.new 200 100 50) 1).intensity
       let diffuse :=
         match i.material.texture with
         | some texture =>
           base_diffuse + sampled_tex_color texture i.u i.v *
             i.material.albedo0 * diffuse_intensity *
             (Light.mk ⟨5, 1, 1⟩ (Color.new 200 100 50) 1).intensity
         | none => base_diffuse
       let specular := (Light.mk ⟨5, 1, 1⟩ (Color.new 200 100 50) 1).color *
         i.material.albedo1 *
         powf (max (view_dir.dot reflect_dir) 0) i.material.specular *
         (Light.mk ⟨5, 1, 1⟩ (Color.new 200 100 50) 1).intensity
       let emission := i.material.emission * (1.8 : ℚ)
       diffuse + specular + emission) := by
  have hhit : (castRayHit ⟨3, 3, 3⟩ ⟨-1, -1, -1⟩
      [Cube.mk ⟨0, 0, 0⟩ 2 Material.black] []).is_intersecting = true := by
    have hval : ((Solid.cube (Cube.mk ⟨0, 0, 0⟩ 2
        Material.black)).ray_intersect ⟨3, 3, 3⟩
        ⟨-1, -1, -1⟩).is_intersecting = true := by
      norm_num [Solid.ray_intersect, Cube.ray_intersect, Vec3.component_div,
        Intersect.new, Intersect.empty]
    simp [castRayHit, sceneObjects, rayLoop, hval, ltZb]
  exact ⟨hhit, cast_ray_shading ⟨3, 3, 3⟩ ⟨-1, -1, -1⟩
    [Cube.mk ⟨0, 0, 0⟩ 2 Material.black] []
    (Light.mk ⟨5, 1, 1⟩ (Color.new 200 100 50) 1) hhit⟩
